import Mathlib

/-!
# Verification of the auto-sales-agent backend session orchestrator

Shallow embedding of `backend/app/main.py`, `backend/app/cosyvoice_client.py`
and the parts of `backend/app/azure_clients.py` the claims touch.

Modelling conventions:
* Python `str` is Lean `String`; `bytes` is `List Nat`.
* A JSON-ish optional value (a field value that may be `null`/`None`) is
  `Option String`; Python truthiness of such a value is `pyTruthy`
  (`None` and `""` are falsy, any non-empty string is truthy).  The
  session-invariant and merge claims are stated at this string-or-null
  level; the profile-summary builder additionally depends on truthy
  NON-string JSON values an extraction merge can store, so it is embedded
  over the richer `PyVal` type and returns `Except` (a raised
  `AttributeError` or the summary).
* A Python `dict` is an association list `List (String × v)`; `k in d` is
  key membership, `d.get(k)` is `find?` on the keys.  Session field dicts
  always carry exactly the nine schema keys.
* Network / LLM calls are oracle parameters: the extractor result, the
  generated reply, the chunk stream, and HTTP POST outcomes are passed in
  as arguments, so every code path of the embedded functions is explicit.
-/

namespace AutoSales

/-- Python truthiness of an optional string value: `None` and `""` are
falsy, everything else is truthy. -/
def pyTruthy : Option String → Bool
  | none => false
  | some s => !s.isEmpty

/-- Python whitespace characters stripped by `str.strip()` (ASCII subset). -/
def isPySpace (c : Char) : Bool :=
  c = ' ' || c = '\t' || c = '\n' || c = '\r' || c = '\x0b' || c = '\x0c'

/-- `str.strip()` on a character list: drop whitespace from both ends. -/
def pyStripL (l : List Char) : List Char :=
  ((l.dropWhile isPySpace).reverse.dropWhile isPySpace).reverse

/-- `str.strip()` on a `String`. -/
def pyStrip (s : String) : String := ⟨pyStripL s.data⟩

/-- Substring containment on character lists: `pat` occurs contiguously
inside the list. -/
def isSubL (pat : List Char) : List Char → Bool
  | [] => pat.isEmpty
  | c :: cs => pat.isPrefixOf (c :: cs) || isSubL pat cs

/-- Python `needle in haystack` on strings (substring containment). -/
def containsSub (haystack needle : String) : Bool :=
  isSubL needle.data haystack.data

/-- Python `s or default` for strings (`default` when `s` is falsy). -/
def pyOrStr (s d : String) : String := if s.isEmpty then d else s

/-- `str.replace(pat, "")` : remove every (leftmost, non-overlapping)
occurrence of `pat`, continuing the scan after each removed occurrence.
Structural recursion on a fuel bounded by the list length (each step
consumes at least one character, so fuel `l.length` is always enough). -/
def removeAllFuel (pat : List Char) : Nat → List Char → List Char
  | 0, l => l
  | _ + 1, [] => []
  | fuel + 1, c :: cs =>
    if !pat.isEmpty && pat.isPrefixOf (c :: cs) then
      removeAllFuel pat fuel ((c :: cs).drop pat.length)
    else
      c :: removeAllFuel pat fuel cs

/-- `str.replace(pat, "")` on a character list. -/
def removeAllL (pat l : List Char) : List Char := removeAllFuel pat l.length l

/-- `reply.replace("[DONE]", "")` specialised to a string pattern. -/
def pyRemoveAll (pat s : String) : String := ⟨removeAllL pat.data s.data⟩

-- ---------- Session data model (main.py lines 68-132) ----------

/-- The canonical field order `_FIELD_ORDER` (main.py lines 84-94). -/
def _FIELD_ORDER : List String :=
  ["brand", "industry", "product", "audience", "channels",
   "goals", "tone", "objections", "region_lang"]

/-- A session's `fields` dict: association list from field name to
optional value. -/
abbrev Fields := List (String × Option String)

/-- `state.fields.get(k)`: value of key `k` (absent key and stored `None`
both give `none`; the two are used identically by the embedded code). -/
def fieldsGet : Fields → String → Option String
  | [], _ => none
  | kv :: rest, k => if kv.1 == k then kv.2 else fieldsGet rest k

/-- `k in state.fields`: key membership in the dict. -/
def hasKey : Fields → String → Bool
  | [], _ => false
  | kv :: rest, k => kv.1 == k || hasKey rest k

/-- `state.fields[k] = v`: overwrite the value stored at the (unique)
matching key. -/
def setField : Fields → String → Option String → Fields
  | [], _, _ => []
  | kv :: rest, k, v => if kv.1 == k then (kv.1, v) :: rest else kv :: setField rest k v

/-- The initial `fields` dict of `_new_session`: every schema key mapped
to `None` (main.py lines 105-115). -/
def fields0 : Fields := _FIELD_ORDER.map (fun k => (k, none))

/-- `SessionState` (main.py lines 68-75).  `created_at` is an opaque
timestamp supplied by the caller (`time.time()` is not modelled). -/
structure SessionState where
  session_id : String
  user_id : String
  created_at : Nat
  fields : Fields
  missing : List String
  history : List (String × String)
  voice_template : Option (List Nat)
deriving DecidableEq, Repr

/-- The loop body of `_apply_extracted` (main.py lines 129-131):
`if k in state.fields and v: state.fields[k] = v`. -/
def applyStep (f : Fields) (kv : String × Option String) : Fields :=
  if hasKey f kv.1 && pyTruthy kv.2 then setField f kv.1 kv.2 else f

/-- `_apply_extracted` (main.py lines 128-132): for each extracted
key/value, overwrite the session field when the key exists in the dict and
the value is truthy; then recompute `missing` from scratch. -/
def _apply_extracted (st : SessionState) (extracted : List (String × Option String)) :
    SessionState :=
  let fields := extracted.foldl applyStep st.fields
  { st with
    fields := fields
    missing := _FIELD_ORDER.filter (fun k => !pyTruthy (fieldsGet fields k)) }

/-- `_new_session` (main.py lines 97-125).  The generated uuid and
timestamp are parameters; the seed extraction result (an LLM call) is the
oracle `extractor`. -/
def _new_session (user_id : String) (sid : String) (ts : Nat)
    (seed : Option String) (extractor : String → List (String × Option String)) :
    SessionState :=
  let state : SessionState :=
    { session_id := sid
      user_id := pyOrStr user_id "demo-user"
      created_at := ts
      fields := fields0
      missing := _FIELD_ORDER
      history := []
      voice_template := none }
  match seed with
  | none => state
  | some s =>
    let state := _apply_extracted state (extractor s)
    { state with history := state.history ++ [("user", s)] }

/-- `POST /api/onboard_session/start` body (main.py lines 670-696): create
the session, then append the assistant's opening reply (an LLM call,
passed as the oracle `reply`) to the history. -/
def onboard_session_start (user_id sid : String) (ts : Nat) (seed : Option String)
    (extractor : String → List (String × Option String)) (reply : String) :
    SessionState :=
  let state := _new_session user_id sid ts seed extractor
  { state with history := state.history ++ [("assistant", reply)] }

/-- The completion sentinel token checked by the message route. -/
def sentinel : String := "[DONE]"

/-- `POST /api/onboard_session/{id}/message` body, session-state part
(main.py lines 699-755): append the user message, apply the extraction
(oracle `extracted`), append the assistant reply (oracle `reply`); if the
reply contains `"[DONE]"`, strip it, rewrite the stored last history entry
and force `done := true`.  Returns (new state, returned reply, done). -/
def onboard_session_message (st : SessionState) (msg : String)
    (extracted : List (String × Option String)) (reply : String) :
    SessionState × String × Bool :=
  let st1 := { st with history := st.history ++ [("user", msg)] }
  let st2 := _apply_extracted st1 extracted
  let st3 := { st2 with history := st2.history ++ [("assistant", reply)] }
  let done := st3.missing.length == 0
  if containsSub reply sentinel then
    let reply2 := pyStrip (pyRemoveAll sentinel reply)
    let st4 := { st3 with history := st3.history.dropLast ++ [("assistant", reply2)] }
    (st4, reply2, true)
  else
    (st3, reply, done)

/-- `POST /api/onboard_session/{id}/voice_template` body, session-state
part (main.py lines 758-772): store the uploaded bytes. -/
def upload_voice_template (st : SessionState) (audio_bytes : List Nat) : SessionState :=
  { st with voice_template := some audio_bytes }

-- ---------- Channel normalization (main.py lines 173-183) ----------

/-- The channels-normalization step of `_extract_fields` (main.py lines
173-183), applied when the extracted `channels` value is a string:
`ch = ch.strip()`, then the token tests on `ch`; the passthrough branch
leaves the original (unstripped) value in place. -/
def normalize_channels (v : String) : String :=
  let ch := pyStrip v
  if containsSub ch "短信" && containsSub ch "电" then "两者"
  else if containsSub ch "短信" then "短信"
  else if containsSub ch "电" || containsSub ch "电话" then "电话"
  else v

-- ---------- Profile summary builder (main.py lines 188-212) ----------
--
-- `_extract_fields` parses the model output with `json.loads` and only
-- type-checks the `channels` value, so an extraction result can carry
-- truthy NON-string JSON values (a list for `objections`, a number, ...),
-- and `_apply_extracted` stores them unchecked into `fields: Dict[str, Any]`.
-- `val(k) = (fields.get(k) or "").strip()` then raises `AttributeError`
-- on such a value.  The summary builder is therefore embedded over a
-- JSON-value type and returns `Except` (raised exception or summary).

/-- A JSON value as stored in `fields` by an extraction merge: `null`,
a string, or a truthy-capable non-string value.  `arr` stands for the
whole class of non-string JSON values (list, number, object, ...) — all
of them lack `.strip()`. -/
inductive PyVal where
  | null
  | str (s : String)
  | arr (xs : List String)
deriving DecidableEq, Repr

/-- Python truthiness of a JSON value. -/
def pyValTruthy : PyVal → Bool
  | PyVal.null => false
  | PyVal.str s => !s.isEmpty
  | PyVal.arr xs => !xs.isEmpty

/-- Whether a value is a non-string (list-like) JSON value. -/
def isArr : PyVal → Bool
  | PyVal.arr _ => true
  | _ => false

/-- A `fields` dict at the JSON-value level. -/
abbrev PyFields := List (String × PyVal)

/-- `fields.get(k)` at the JSON-value level (missing key gives `None`). -/
def pyFieldsGet : PyFields → String → PyVal
  | [], _ => PyVal.null
  | kv :: rest, k => if kv.1 == k then kv.2 else pyFieldsGet rest k

/-- `k in fields` at the JSON-value level. -/
def pyHasKey : PyFields → String → Bool
  | [], _ => false
  | kv :: rest, k => kv.1 == k || pyHasKey rest k

/-- `fields[k] = v` at the JSON-value level. -/
def pySetField : PyFields → String → PyVal → PyFields
  | [], _, _ => []
  | kv :: rest, k, v => if kv.1 == k then (kv.1, v) :: rest else kv :: pySetField rest k v

/-- The fields-update loop of `_apply_extracted` (main.py lines 129-131)
at the JSON-value level: `if k in state.fields and v: state.fields[k] = v`
stores ANY truthy JSON value unchecked. -/
def _apply_extracted_fields_py (f : PyFields) (extracted : List (String × PyVal)) :
    PyFields :=
  extracted.foldl
    (fun f kv => if pyHasKey f kv.1 && pyValTruthy kv.2 then pySetField f kv.1 kv.2 else f)
    f

/-- The initial `fields` dict of a fresh session at the JSON-value level
(main.py lines 105-115): every schema key mapped to `None`. -/
def pyFields0 : PyFields := _FIELD_ORDER.map (fun k => (k, PyVal.null))

/-- `x or ""` inside `val(k)`: a falsy value is replaced by `""`, a
truthy value (of any JSON type) is kept. -/
def pyValOr (v : PyVal) : PyVal := if pyValTruthy v then v else PyVal.str ""

/-- `.strip()` on the result of `fields.get(k) or ""`: succeeds on a
string, raises `AttributeError` on any non-string value. -/
def pyValStrip : PyVal → Except String String
  | PyVal.str s => Except.ok (pyStrip s)
  | PyVal.arr _ => Except.error "AttributeError: list object has no attribute strip"
  | PyVal.null => Except.error "AttributeError: NoneType object has no attribute strip"

/-- `val(k)` inside `_build_profile_summary` (main.py lines 189-190):
`(fields.get(k) or "").strip()` — may raise on a truthy non-string. -/
def summaryValPy (fields : PyFields) (k : String) : Except String String :=
  pyValStrip (pyValOr (pyFieldsGet fields k))

/-- `_build_profile_summary` (main.py lines 188-212), translated
line-for-line from the source: each binding is `val(k) or default`
(evaluated top to bottom, the first raised `AttributeError` propagating
to the caller) and the result joins the nine formatted lines. -/
def _build_profile_summary_py (fields : PyFields) : Except String String := do
  let brand := pyOrStr (← summaryValPy fields "brand") "品牌"
  let industry := pyOrStr (← summaryValPy fields "industry") "通用SaaS"
  let product := pyOrStr (← summaryValPy fields "product") "一款面向潜在客户的产品/服务"
  let audience := pyOrStr (← summaryValPy fields "audience") "潜在客户"
  let channels := pyOrStr (← summaryValPy fields "channels") "两者"
  let goals := pyOrStr (← summaryValPy fields "goals") "试用或预约"
  let tone := pyOrStr (← summaryValPy fields "tone") "自然亲切、专业、以人为本"
  let objections := pyOrStr (← summaryValPy fields "objections") "价格、效果、实施成本"
  let region_lang := pyOrStr (← summaryValPy fields "region_lang") "中国大陆/中文"
  return String.intercalate "\n"
    ["品牌：" ++ brand, "行业：" ++ industry, "产品：" ++ product,
     "受众：" ++ audience, "渠道：" ++ channels, "目标：" ++ goals,
     "语气：" ++ tone, "异议：" ++ objections, "区域与语言：" ++ region_lang]

/-- The (label, field key, documented default) table of the spec's Profile
Summary Builder: "for each field, uses the session value if present, else
a documented default".  This definition follows the SPEC's words (§4.4)
for the amended refinement theorem C9, not the source. -/
def summarySpecTable : List (String × String × String) :=
  [("品牌：", "brand", "品牌"),
   ("行业：", "industry", "通用SaaS"),
   ("产品：", "product", "一款面向潜在客户的产品/服务"),
   ("受众：", "audience", "潜在客户"),
   ("渠道：", "channels", "两者"),
   ("目标：", "goals", "试用或预约"),
   ("语气：", "tone", "自然亲切、专业、以人为本"),
   ("异议：", "objections", "价格、效果、实施成本"),
   ("区域与语言：", "region_lang", "中国大陆/中文")]

/-- The spec-side per-field value: the session's (stripped) string value;
`""` for `null` (the `arr` case is irrelevant under the string-valued
hypothesis of the amended theorem). -/
def specValPy (fields : PyFields) (k : String) : String :=
  match pyFieldsGet fields k with
  | PyVal.str s => pyStrip s
  | _ => ""

/-- Spec-side profile-summary builder (§4.4): a total map over the field
table that uses the session's (stripped) value when it is non-empty and
the documented default otherwise. -/
def profileSummarySpecPy (fields : PyFields) : String :=
  String.intercalate "\n"
    (summarySpecTable.map (fun t =>
      t.1 ++ (if (specValPy fields t.2.1).isEmpty then t.2.2 else specValPy fields t.2.1)))

-- ---------- Session store and finalize (main.py lines 78, 775-825) ----------

/-- The process-wide session store `_SESSIONS`. -/
abbrev SessionStore := List (String × SessionState)

/-- `_SESSIONS.get(session_id)`. -/
def storeGet : SessionStore → String → Option SessionState
  | [], _ => none
  | kv :: rest, sid => if kv.1 == sid then some kv.2 else storeGet rest sid

/-- The JSON body returned by a successful finalize (main.py lines
819-825); the LLM-produced prompt is the oracle `prompt_md`. -/
structure FinalizeResp where
  agent_name : String
  prompt : String
  profile : Fields
  has_voice_template : Bool
  metadata_has_template_b64 : Bool
deriving DecidableEq, Repr

/-- `POST /api/onboard_session/{id}/finalize` (main.py lines 775-825):
look the session up (404 when absent), build the profile summary, create
the assistant (LLM call abstracted to the oracle `prompt_md`), and return.
The source never deletes the session, so the returned store is the input
store unchanged. -/
def onboard_session_finalize (store : SessionStore) (sid : String) (prompt_md : String) :
    Except Nat (SessionStore × FinalizeResp) :=
  match storeGet store sid with
  | none => Except.error 404
  | some state =>
    Except.ok (store,
      { agent_name := pyOrStr ((fieldsGet state.fields "brand").getD "") "Sales Agent"
        prompt := prompt_md
        profile := state.fields
        has_voice_template := state.voice_template.isSome
        metadata_has_template_b64 :=
          match state.voice_template with
          | some bs => !bs.isEmpty
          | none => false })

-- ---------- Chat history and streaming (main.py lines 397-556) ----------

/-- One entry of a conversation thread (`{"role": ..., "content": ...}`). -/
structure Msg where
  role : String
  content : String
deriving DecidableEq, Repr

/-- Python `l[-n:]`: the `n` most recent entries (the whole list when it
is shorter than `n`). -/
def lastN (n : Nat) (l : List α) : List α := l.drop (l.length - n)

/-- The history cap (main.py lines 455-461 and 536-540): once the thread
exceeds 21 entries it becomes `[messages[0]] + messages[-20:]`. -/
def pruneHistory (h : List Msg) : List Msg :=
  if h.length > 21 then h.take 1 ++ lastN 20 h else h

/-- One non-streaming chat turn on an initialized thread (main.py lines
432-462): append the user message, call the LLM (oracle `reply`), append
the assistant reply, prune.  Returns the stored history. -/
def chatTurn (hist : List Msg) (userText reply : String) : List Msg :=
  pruneHistory (hist ++ [⟨"user", userText⟩, ⟨"assistant", reply⟩])

/-- An SSE event of the streaming chat endpoint.  The `audio` constructor
exists so that ordering statements about audio events are statable; the
trace semantics below shows which events the code actually emits. -/
inductive StreamEvent where
  | textDelta (content : String)
  | audio (data : List Nat)
  | done
  | error (msg : String)
deriving DecidableEq, Repr

def isTextDeltaEv : StreamEvent → Bool
  | StreamEvent.textDelta _ => true
  | _ => false

def isAudioEv : StreamEvent → Bool
  | StreamEvent.audio _ => true
  | _ => false

def isDoneEv : StreamEvent → Bool
  | StreamEvent.done => true
  | _ => false

/-- A terminal SSE event: `done` or `error`. -/
def isTerminalEv : StreamEvent → Bool
  | StreamEvent.done => true
  | StreamEvent.error _ => true
  | _ => false

/-- Outcome of the streamed LLM call: either the full chunk sequence, or
an exception after some consumed chunks (covering both a failing
`create(stream=True)` call, `consumed = []`, and a mid-iteration raise). -/
inductive GenOutcome where
  | ok (chunks : List String)
  | fail (consumed : List String) (err : String)

/-- The `yield` for each streamed chunk (main.py lines 522-528): a
text-delta event is emitted only for chunks with truthy content. -/
def deltaEvents (chunks : List String) : List StreamEvent :=
  (chunks.filter (fun c => !c.isEmpty)).map StreamEvent.textDelta

/-- The `generate()` coroutine body of `chat_stream` (main.py lines
508-546), given the history with the user message already appended and
the LLM outcome: on success, emit the deltas, append the accumulated
reply, prune, emit `done`; on an exception, emit the deltas already
produced and a single `error` event, leaving the history untouched.
Returns (emitted events, stored history). -/
def chat_stream_generate (hist1 : List Msg) (out : GenOutcome) :
    List StreamEvent × List Msg :=
  match out with
  | GenOutcome.ok chunks =>
    let full := String.join (chunks.filter (fun c => !c.isEmpty))
    (deltaEvents chunks ++ [StreamEvent.done],
     pruneHistory (hist1 ++ [⟨"assistant", full⟩]))
  | GenOutcome.fail consumed e =>
    (deltaEvents consumed ++ [StreamEvent.error e], hist1)

/-- `POST /api/agents/{id}/chat/stream` on an initialized thread (main.py
lines 501-546): the user message is appended to the thread history first,
and the generator is run on that updated history (oracle `gen`). -/
def chat_stream (hist : List Msg) (userText : String)
    (gen : List Msg → GenOutcome) : List StreamEvent × List Msg :=
  let hist1 := hist ++ [⟨"user", userText⟩]
  chat_stream_generate hist1 (gen hist1)

-- ---------- CosyVoice synthesis (cosyvoice_client.py, main.py 565-599) ----------

/-- The JSON payload posted to the CosyVoice inference endpoint
(cosyvoice_client.py lines 52-73); the speed field does not affect any
claim and is omitted.  Reference audio is carried as raw bytes (the
base64 wire encoding is abstracted away). -/
inductive SynthPayload where
  | cloning (text : String) (reference_audio : List Nat)
  | preset (text : String) (speaker : String)
deriving DecidableEq, Repr

/-- `CosyVoiceClient.synthesize` (cosyvoice_client.py lines 28-87): raise
when disabled; otherwise build the payload (cloning mode when reference
audio is supplied and truthy) and POST it (oracle `post`, already folding
in `raise_for_status`); an `httpx.HTTPError` is logged and RE-RAISED —
there is no fallback provider in this function. -/
def CosyVoice_synthesize (enabled : Bool) (text : String) (speaker : String)
    (reference_audio : Option (List Nat))
    (post : SynthPayload → Except String (List Nat)) :
    Except String (List Nat) :=
  if !enabled then
    Except.error "CosyVoice is not enabled. Set COSYVOICE_ENABLED=true in .env"
  else
    let payload :=
      match reference_audio with
      | some ref =>
        if !ref.isEmpty then SynthPayload.cloning text ref
        else SynthPayload.preset text speaker
      | none => SynthPayload.preset text speaker
    post payload

/-- `POST /api/tts` (main.py lines 565-599): call `synthesize` with the
preset speaker; on success return the audio bytes; on any exception
return an HTTP 500 error `"TTS failed: ..."` — the failure is surfaced to
the caller, not absorbed. -/
def text_to_speech (enabled : Bool) (text speaker : String)
    (post : SynthPayload → Except String (List Nat)) :
    Except (Nat × String) (List Nat) :=
  match CosyVoice_synthesize enabled text speaker none post with
  | Except.ok audio => Except.ok audio
  | Except.error e => Except.error (500, "TTS failed: " ++ e)

-- ---------- Concrete demo inputs (used by witnesses) ----------

/-- A fresh session created with no seed transcript. -/
def demoSession : SessionState := _new_session "demo-user" "sid1" 0 none (fun _ => [])

/-- A store holding exactly the demo session under its id. -/
def demoStore : SessionStore := [("sid1", demoSession)]

/-- The demo session after an extraction result `{brand: "A"}` was merged. -/
def demoSessionA : SessionState := _apply_extracted demoSession [("brand", some "A")]

/-- A generation oracle that always fails immediately. -/
def demoGenFail : List Msg → GenOutcome := fun _ => GenOutcome.fail [] "boom"

/-- A generation oracle that streams two chunks and succeeds. -/
def demoGenOk : List Msg → GenOutcome := fun _ => GenOutcome.ok ["你", "好"]

/-- A POST oracle for the CosyVoice API that always raises. -/
def demoPostFail : SynthPayload → Except String (List Nat) :=
  fun _ => Except.error "connect error"

/-- A 21-entry chat history: one system entry and 20 numbered entries. -/
def demoHist : List Msg :=
  ⟨"system", "S"⟩ :: (List.range 20).map (fun i => ⟨"user", toString i⟩)

-- ---------- Helper lemmas: field dictionaries ----------

/-- The session-state invariant of the spec (§3): `missing` is exactly the
canonical field order filtered to the unset entries of `fields`. -/
def missingInvariant (st : SessionState) : Prop :=
  st.missing = _FIELD_ORDER.filter (fun k => !pyTruthy (fieldsGet st.fields k))

theorem hasKey_setField (f : Fields) (k : String) (v : Option String) (k' : String) :
    hasKey (setField f k v) k' = hasKey f k' := by
  induction f with
  | nil => rfl
  | cons kv rest ih =>
    by_cases h : kv.1 == k
    · simp [setField, hasKey, h]
    · simp [setField, hasKey, h, ih]

theorem fieldsGet_setField_self (f : Fields) (k : String) (v : Option String)
    (h : hasKey f k = true) : fieldsGet (setField f k v) k = v := by
  induction f with
  | nil => simp [hasKey] at h
  | cons kv rest ih =>
    by_cases h2 : kv.1 == k
    · simp [setField, fieldsGet, h2]
    · simp only [hasKey, h2, Bool.false_or] at h
      simp [setField, fieldsGet, h2, ih h]

theorem fieldsGet_setField_ne (f : Fields) (k : String) (v : Option String)
    (k' : String) (h : k' ≠ k) : fieldsGet (setField f k v) k' = fieldsGet f k' := by
  induction f with
  | nil => rfl
  | cons kv rest ih =>
    by_cases h2 : kv.1 == k
    · have hk : kv.1 = k := by simpa using h2
      have h3 : (kv.1 == k') = false := by
        simp only [beq_eq_false_iff_ne, ne_eq, hk]
        exact fun hh => h hh.symm
      simp [setField, fieldsGet, h2, h3, hk, Ne.symm h]
    · simp [setField, fieldsGet, h2, ih]

/-- The `_apply_extracted` loop body rewrites to one of two results. -/
theorem applyStep_eq (f : Fields) (kv : String × Option String) :
    applyStep f kv = f ∨ applyStep f kv = setField f kv.1 kv.2 := by
  by_cases h : hasKey f kv.1 && pyTruthy kv.2
  · exact Or.inr (by simp [applyStep, h])
  · exact Or.inl (by simp [applyStep, h])

theorem hasKey_applyStep (f : Fields) (kv : String × Option String) (k : String) :
    hasKey (applyStep f kv) k = hasKey f k := by
  rcases applyStep_eq f kv with h | h <;> rw [h]
  rw [hasKey_setField]

theorem hasKey_applyFold (ext : List (String × Option String)) (f : Fields) (k : String) :
    hasKey (ext.foldl applyStep f) k = hasKey f k := by
  induction ext generalizing f with
  | nil => rfl
  | cons kv rest ih =>
    simp only [List.foldl_cons]
    rw [ih, hasKey_applyStep]

/-- Keys never touched by any applicable extracted entry keep their
value through the whole `_apply_extracted` loop. -/
theorem fieldsGet_applyFold_of_none (ext : List (String × Option String))
    (f : Fields) (k : String)
    (h : ∀ v, (k, v) ∈ ext → (hasKey f k && pyTruthy v) = false) :
    fieldsGet (ext.foldl applyStep f) k = fieldsGet f k := by
  induction ext generalizing f with
  | nil => rfl
  | cons kv rest ih =>
    simp only [List.foldl_cons]
    have hstep : fieldsGet (applyStep f kv) k = fieldsGet f k := by
      by_cases hg : (hasKey f kv.1 && pyTruthy kv.2) = true
      · by_cases hkey : kv.1 = k
        · exfalso
          have hmem : (k, kv.2) ∈ kv :: rest := by
            rw [show (k, kv.2) = kv from by rw [← hkey]]
            exact List.mem_cons_self kv rest
          have := h kv.2 hmem
          rw [← hkey] at this
          rw [this] at hg
          exact Bool.false_ne_true hg
        · rw [show applyStep f kv = setField f kv.1 kv.2 from by simp [applyStep, hg]]
          exact fieldsGet_setField_ne f kv.1 kv.2 k (fun hh => hkey hh.symm)
      · rw [show applyStep f kv = f from by simp [applyStep, hg]]
    rw [ih (applyStep f kv) ?_, hstep]
    intro v hmem
    rw [hasKey_applyStep]
    exact h v (List.mem_cons_of_mem kv hmem)

/-- An extracted entry `(k, v)` with a schema key and a truthy value ends
the `_apply_extracted` loop with field `k` holding exactly `v`, provided
the extracted dict has no duplicate keys. -/
theorem fieldsGet_applyFold_of_mem (ext : List (String × Option String))
    (f : Fields) (k : String) (v : Option String)
    (hnd : (ext.map Prod.fst).Nodup)
    (hmem : (k, v) ∈ ext) (hk : hasKey f k = true) (hv : pyTruthy v = true) :
    fieldsGet (ext.foldl applyStep f) k = v := by
  induction ext generalizing f with
  | nil => exact absurd hmem (List.not_mem_nil _)
  | cons kv rest ih =>
    simp only [List.map_cons, List.nodup_cons] at hnd
    simp only [List.foldl_cons]
    by_cases hkey : kv.1 = k
    · have hkv : kv = (k, v) := by
        rcases List.mem_cons.mp hmem with h1 | h1
        · exact h1.symm
        · exfalso
          exact hnd.1 (by rw [hkey]; exact List.mem_map_of_mem Prod.fst h1)
      have hstep : applyStep f kv = setField f k v := by
        rw [hkv]
        simp [applyStep, hk, hv]
      rw [hstep]
      rw [fieldsGet_applyFold_of_none rest (setField f k v) k ?_]
      · exact fieldsGet_setField_self f k v hk
      · intro v2 hmem2
        exfalso
        exact hnd.1 (by rw [hkey]; exact List.mem_map_of_mem Prod.fst hmem2)
    · have hmem2 : (k, v) ∈ rest := by
        rcases List.mem_cons.mp hmem with h1 | h1
        · exact absurd (by rw [← h1] : kv.1 = k) hkey
        · exact h1
      exact ih (applyStep f kv) hnd.2 hmem2 (by rw [hasKey_applyStep]; exact hk)

/-- `hasKey` is key membership. -/
theorem hasKey_iff_mem (f : Fields) (k : String) :
    hasKey f k = true ↔ k ∈ f.map Prod.fst := by
  induction f with
  | nil => simp [hasKey]
  | cons kv rest ih =>
    simp only [hasKey, Bool.or_eq_true, beq_iff_eq, List.map_cons, List.mem_cons, ih]
    exact or_congr eq_comm Iff.rfl

/-- `_apply_extracted` recomputes `missing` from scratch, so the invariant
holds after it unconditionally. -/
theorem missingInvariant_apply (st : SessionState)
    (ext : List (String × Option String)) :
    missingInvariant (_apply_extracted st ext) := rfl

/-- The invariant only depends on `missing` and `fields`. -/
theorem missingInvariant_of_same (st st' : SessionState)
    (hm : st'.missing = st.missing) (hf : st'.fields = st.fields)
    (h : missingInvariant st) : missingInvariant st' := by
  rw [missingInvariant, hm, hf]
  exact h

-- ---------- Claim theorems ----------

/-- C2: for every session and after every mutating operation on it
(session creation with or without seed, message handling with extraction
merge, voice-template upload, finalize), the session's `missing` list
equals exactly the field names of the canonical field order whose entry
in `fields` is unset, in canonical order.  (Finalize does not mutate any
session, so its conjunct states that the store is returned unchanged.) -/
theorem C2_missing_invariant :
    (∀ uid sid ts seed extr, missingInvariant (_new_session uid sid ts seed extr))
    ∧ (∀ uid sid ts seed extr reply,
        missingInvariant (onboard_session_start uid sid ts seed extr reply))
    ∧ (∀ st msg extr reply,
        missingInvariant (onboard_session_message st msg extr reply).1)
    ∧ (∀ st bs, missingInvariant st → missingInvariant (upload_voice_template st bs))
    ∧ (∀ store sid pm store2 resp,
        onboard_session_finalize store sid pm = Except.ok (store2, resp) →
          store2 = store) := by
  have hnew : ∀ (uid sid : String) (ts : Nat) (seed : Option String)
      (extr : String → List (String × Option String)),
      missingInvariant (_new_session uid sid ts seed extr) := by
    intro uid sid ts seed extr
    cases seed with
    | none => exact rfl
    | some s => exact rfl
  refine ⟨hnew, ?_, ?_, ?_, ?_⟩
  · intro uid sid ts seed extr reply
    exact missingInvariant_of_same (_new_session uid sid ts seed extr) _ rfl rfl
      (hnew uid sid ts seed extr)
  · intro st msg extr reply
    by_cases h : containsSub reply sentinel = true
    · simp only [onboard_session_message, h, if_true]
      exact missingInvariant_of_same
        (_apply_extracted { st with history := st.history ++ [("user", msg)] } extr)
        _ rfl rfl (missingInvariant_apply _ _)
    · simp only [onboard_session_message, h, if_false]
      exact missingInvariant_of_same
        (_apply_extracted { st with history := st.history ++ [("user", msg)] } extr)
        _ rfl rfl (missingInvariant_apply _ _)
  · intro st bs h
    exact missingInvariant_of_same st _ rfl rfl h
  · intro store sid pm store2 resp h
    unfold onboard_session_finalize at h
    cases hs : storeGet store sid with
    | none => rw [hs] at h; exact absurd h (by simp)
    | some st =>
      rw [hs] at h
      have := (Except.ok.injEq _ _).mp h
      exact (congrArg Prod.fst this.symm : store2 = store)

/-- C2 witness: the invariant proved at concrete inputs, discharging the
hypotheses of the voice-upload and finalize conjuncts. -/
theorem C2_missing_invariant_witness :
    missingInvariant (upload_voice_template demoSession [1, 2, 3])
    ∧ demoStore = demoStore := by
  constructor
  · exact C2_missing_invariant.2.2.2.1 demoSession [1, 2, 3] rfl
  · exact C2_missing_invariant.2.2.2.2 demoStore "sid1" "P" demoStore
      ⟨"Sales Agent", "P", demoSession.fields, false, false⟩ rfl

/-- C7: applying an extraction result overwrites each schema field that
has a truthy extracted value with exactly that value, and leaves every
other field (falsy/null extracted value, or key outside the schema)
unchanged. -/
theorem C7_merge_overwrite (st : SessionState)
    (extracted : List (String × Option String))
    (hwf : st.fields.map Prod.fst = _FIELD_ORDER)
    (hnd : (extracted.map Prod.fst).Nodup) :
    (∀ k v, (k, v) ∈ extracted → k ∈ _FIELD_ORDER → pyTruthy v = true →
       fieldsGet (_apply_extracted st extracted).fields k = v)
    ∧ (∀ k, (∀ v, (k, v) ∈ extracted → ¬(k ∈ _FIELD_ORDER ∧ pyTruthy v = true)) →
       fieldsGet (_apply_extracted st extracted).fields k = fieldsGet st.fields k) := by
  have hfields : (_apply_extracted st extracted).fields
      = extracted.foldl applyStep st.fields := rfl
  constructor
  · intro k v hmem hschema hv
    rw [hfields]
    exact fieldsGet_applyFold_of_mem extracted st.fields k v hnd hmem
      ((hasKey_iff_mem st.fields k).mpr (by rw [hwf]; exact hschema)) hv
  · intro k hnone
    rw [hfields]
    apply fieldsGet_applyFold_of_none
    intro v hmem
    by_cases hk : hasKey st.fields k = true
    · have hks : k ∈ _FIELD_ORDER := by
        rw [← hwf]
        exact (hasKey_iff_mem st.fields k).mp hk
      have hv : pyTruthy v = false := by
        cases hpv : pyTruthy v
        · rfl
        · exact absurd ⟨hks, hpv⟩ (hnone v hmem)
      simp [hv]
    · simp only [Bool.not_eq_true] at hk
      simp [hk]

/-- C7 witness: merging `{brand: "B"}` into a session with `brand = "A"`
yields exactly `brand = "B"` and leaves `tone` unchanged. -/
theorem C7_merge_overwrite_witness :
    fieldsGet (_apply_extracted demoSessionA [("brand", some "B")]).fields "brand"
      = some "B"
    ∧ fieldsGet (_apply_extracted demoSessionA [("brand", some "B")]).fields "tone"
      = none := by
  have h := C7_merge_overwrite demoSessionA [("brand", some "B")] (by decide) (by decide)
  refine ⟨h.1 "brand" (some "B") (by decide) (by decide) (by decide), ?_⟩
  have h2 := h.2 "tone" ?_
  · rw [h2]; decide
  · intro v hm
    rw [List.mem_singleton] at hm
    have := congrArg Prod.fst hm
    simp at this

/-- Every event produced by the chunk loop is a text delta. -/
theorem mem_deltaEvents (cs : List String) (e : StreamEvent)
    (h : e ∈ deltaEvents cs) : ∃ c, e = StreamEvent.textDelta c := by
  simp only [deltaEvents, List.mem_map] at h
  obtain ⟨c, _, hc⟩ := h
  exact ⟨c, hc.symm⟩

theorem countP_deltaEvents (cs : List String) :
    (deltaEvents cs).countP (fun e => isTerminalEv e) = 0 := by
  refine List.countP_eq_zero.mpr ?_
  intro e he
  obtain ⟨c, hc⟩ := mem_deltaEvents cs e he
  subst hc
  simp [isTerminalEv]

theorem audio_deltaEvents (cs : List String) (e : StreamEvent)
    (h : e ∈ deltaEvents cs) : isAudioEv e = false := by
  obtain ⟨c, hc⟩ := mem_deltaEvents cs e h
  subst hc
  rfl

/-- The event trace of either outcome is the chunk deltas followed by a
single terminal event. -/
theorem chat_stream_generate_shape (h1 : List Msg) (out : GenOutcome) :
    ((chat_stream_generate h1 out).1.countP (fun e => isTerminalEv e) = 1)
    ∧ (∀ e ∈ (chat_stream_generate h1 out).1, isAudioEv e = false) := by
  cases out with
  | ok chunks =>
    constructor
    · show (deltaEvents chunks ++ [StreamEvent.done]).countP (fun e => isTerminalEv e) = 1
      rw [List.countP_append, countP_deltaEvents]
      rfl
    · intro e he
      simp only [chat_stream_generate, List.mem_append] at he
      rcases he with he | he
      · exact audio_deltaEvents chunks e he
      · rw [List.mem_singleton] at he
        subst he
        rfl
  | fail consumed err =>
    constructor
    · show (deltaEvents consumed ++ [StreamEvent.error err]).countP (fun e => isTerminalEv e) = 1
      rw [List.countP_append, countP_deltaEvents]
      rfl
    · intro e he
      simp only [chat_stream_generate, List.mem_append] at he
      rcases he with he | he
      · exact audio_deltaEvents consumed e he
      · rw [List.mem_singleton] at he
        subst he
        rfl

/-- C3: every streaming chat call emits exactly one terminal event, every
text-delta event index precedes every audio-event index, and every
audio-event index precedes every `done` index.  The last conjunct makes
the mechanism explicit: the stream emits no audio event at all, so the
two ordering guarantees hold vacuously. -/
theorem C3_stream_order (hist : List Msg) (u : String)
    (gen : List Msg → GenOutcome) :
    ((chat_stream hist u gen).1.countP (fun e => isTerminalEv e) = 1)
    ∧ (∀ i j : Fin (chat_stream hist u gen).1.length,
        isTextDeltaEv ((chat_stream hist u gen).1.get i) = true →
        isAudioEv ((chat_stream hist u gen).1.get j) = true → (i : Nat) < (j : Nat))
    ∧ (∀ i j : Fin (chat_stream hist u gen).1.length,
        isAudioEv ((chat_stream hist u gen).1.get i) = true →
        isDoneEv ((chat_stream hist u gen).1.get j) = true → (i : Nat) < (j : Nat))
    ∧ (∀ e ∈ (chat_stream hist u gen).1, isAudioEv e = false) := by
  have hshape := chat_stream_generate_shape (hist ++ [⟨"user", u⟩])
    (gen (hist ++ [⟨"user", u⟩]))
  refine ⟨hshape.1, ?_, ?_, hshape.2⟩
  · intro i j _ hj
    exfalso
    have := hshape.2 _ (List.get_mem (chat_stream hist u gen).1 j.1 j.2)
    rw [this] at hj
    exact Bool.false_ne_true hj
  · intro i j hi _
    exfalso
    have := hshape.2 _ (List.get_mem (chat_stream hist u gen).1 i.1 i.2)
    rw [this] at hi
    exact Bool.false_ne_true hi

/-- C3 witness: the guarantees instantiated on a concrete successful
stream, discharging the membership hypothesis of the no-audio conjunct. -/
theorem C3_stream_order_witness :
    ((chat_stream demoHist "hi" demoGenOk).1.countP (fun e => isTerminalEv e) = 1)
    ∧ isAudioEv StreamEvent.done = false :=
  ⟨(C3_stream_order demoHist "hi" demoGenOk).1,
   (C3_stream_order demoHist "hi" demoGenOk).2.2.2 StreamEvent.done (by decide)⟩

/-- C4: a chat turn that makes the thread exceed 21 entries prunes it to
the original entry 0 followed by exactly the 20 most recent entries;
entry 0 is always preserved, and the stored thread never exceeds 21
entries after a turn. -/
theorem C4_history_cap (hist : List Msg) (u r : String) (hne : hist ≠ []) :
    ((hist ++ [Msg.mk "user" u, Msg.mk "assistant" r]).length > 21 →
       chatTurn hist u r
         = hist.take 1 ++ lastN 20 (hist ++ [Msg.mk "user" u, Msg.mk "assistant" r])
       ∧ (lastN 20 (hist ++ [Msg.mk "user" u, Msg.mk "assistant" r])).length = 20
       ∧ (chatTurn hist u r).length = 21)
    ∧ (chatTurn hist u r).head? = hist.head?
    ∧ (chatTurn hist u r).length ≤ 21 := by
  rcases hist with _ | ⟨x, xs⟩
  · exact absurd rfl hne
  · have hlen2 : ((x :: xs : List Msg) ++ [Msg.mk "user" u, Msg.mk "assistant" r]).length
        = xs.length + 3 := by simp
    have hLdef : chatTurn (x :: xs) u r
        = pruneHistory ((x :: xs) ++ [Msg.mk "user" u, Msg.mk "assistant" r]) := rfl
    by_cases hgt :
        ((x :: xs : List Msg) ++ [Msg.mk "user" u, Msg.mk "assistant" r]).length > 21
    · have hc : chatTurn (x :: xs) u r
          = [x] ++ lastN 20 ((x :: xs) ++ [Msg.mk "user" u, Msg.mk "assistant" r]) := by
        rw [hLdef]
        unfold pruneHistory
        rw [if_pos hgt]
        rfl
      have hlast :
          (lastN 20 ((x :: xs : List Msg) ++ [Msg.mk "user" u, Msg.mk "assistant" r])).length
            = 20 := by
        rw [hlen2] at hgt
        simp only [lastN, List.length_drop, hlen2]
        omega
      have h21 : (chatTurn (x :: xs) u r).length = 21 := by
        rw [hc, List.length_append, hlast]
        rfl
      refine ⟨fun _ => ⟨hc, hlast, h21⟩, ?_, ?_⟩
      · rw [hc]
        rfl
      · rw [h21]
    · have hc : chatTurn (x :: xs) u r
          = (x :: xs) ++ [Msg.mk "user" u, Msg.mk "assistant" r] := by
        rw [hLdef]
        unfold pruneHistory
        rw [if_neg hgt]
      refine ⟨fun hgt2 => absurd hgt2 hgt, ?_, ?_⟩
      · rw [hc]
        rfl
      · rw [hc]
        omega

/-- C4 witness: a 21-entry thread pruned after one more turn. -/
theorem C4_history_cap_witness :
    chatTurn demoHist "u" "r"
      = demoHist.take 1 ++ lastN 20 (demoHist ++ [Msg.mk "user" "u", Msg.mk "assistant" "r"])
    ∧ (chatTurn demoHist "u" "r").length = 21
    ∧ (chatTurn demoHist "u" "r").head? = demoHist.head? := by
  have h := C4_history_cap demoHist "u" "r" (by decide)
  have h1 := h.1 (by decide)
  exact ⟨h1.1, h1.2.2, h.2.1⟩

/-- C10: in a streaming chat turn the user message is appended before
generation starts (the generator receives the history with the user
entry), and when generation raises, the trace is the already-emitted
deltas plus a single terminal `error` event while the stored history
keeps the user message with no assistant entry and no pruning. -/
theorem C10_stream_error (hist : List Msg) (u : String)
    (gen : List Msg → GenOutcome) (cs : List String) (e : String)
    (h : gen (hist ++ [⟨"user", u⟩]) = GenOutcome.fail cs e) :
    (chat_stream hist u gen).2 = hist ++ [⟨"user", u⟩]
    ∧ (chat_stream hist u gen).1 = deltaEvents cs ++ [StreamEvent.error e]
    ∧ (chat_stream hist u gen).1.countP (fun ev => isTerminalEv ev) = 1 := by
  have hrw : chat_stream hist u gen
      = chat_stream_generate (hist ++ [⟨"user", u⟩]) (gen (hist ++ [⟨"user", u⟩])) := rfl
  rw [hrw, h]
  refine ⟨rfl, rfl, ?_⟩
  show (deltaEvents cs ++ [StreamEvent.error e]).countP (fun ev => isTerminalEv ev) = 1
  rw [List.countP_append, countP_deltaEvents]
  rfl

/-- C10 witness: a concrete failing generation keeps the user entry and
emits a single error event. -/
theorem C10_stream_error_witness :
    (chat_stream demoHist "hi" demoGenFail).2 = demoHist ++ [⟨"user", "hi"⟩]
    ∧ (chat_stream demoHist "hi" demoGenFail).1 = [StreamEvent.error "boom"] := by
  have h := C10_stream_error demoHist "hi" demoGenFail [] "boom" rfl
  exact ⟨h.1, by rw [h.2.1]; rfl⟩

/-- C1 counterexample: finalize is NOT one-shot in the code.  A
successful finalize on the demo store leaves the store unchanged (the
session is still present), and a second finalize call with the same
session id succeeds instead of failing with NotFound. -/
theorem C1_counterexample :
    (onboard_session_finalize demoStore "sid1" "P").toOption.map Prod.fst
      = some demoStore
    ∧ storeGet demoStore "sid1" = some demoSession
    ∧ (onboard_session_finalize demoStore "sid1" "P2").toOption.isSome = true :=
  ⟨rfl, rfl, rfl⟩

/-- C1 amended: `onboard_session_finalize` never removes the session from
the store.  When the id is present, finalize succeeds and returns the
store unchanged (hence a second finalize — the same call on the same
store — succeeds as well); NotFound (404) occurs exactly when the id is
absent from the store. -/
theorem C1_amended (store : SessionStore) (sid pm : String) :
    (∀ st, storeGet store sid = some st →
       (onboard_session_finalize store sid pm).toOption.map Prod.fst = some store)
    ∧ (storeGet store sid = none →
       onboard_session_finalize store sid pm = Except.error 404) := by
  constructor
  · intro st h
    unfold onboard_session_finalize
    rw [h]
    rfl
  · intro h
    unfold onboard_session_finalize
    rw [h]

/-- C1 amended witness: concrete instances of both conjuncts. -/
theorem C1_amended_witness :
    (onboard_session_finalize demoStore "sid1" "P").toOption.map Prod.fst
      = some demoStore
    ∧ onboard_session_finalize [] "nope" "P" = Except.error 404 :=
  ⟨(C1_amended demoStore "sid1" "P").1 demoSession rfl,
   (C1_amended [] "nope" "P").2 rfl⟩

/-- C5 counterexample: there is no synthesis fallback in the code.  With
the client enabled and a provider that raises on every call,
`CosyVoiceClient.synthesize` re-raises the error (it does not return
fallback audio bytes or a "none" value), and the `/api/tts` caller
surfaces an HTTP 500 error instead of proceeding without error. -/
theorem C5_counterexample :
    CosyVoice_synthesize true "你好" "default" none demoPostFail
      = Except.error "connect error"
    ∧ text_to_speech true "你好" "default" demoPostFail
      = Except.error (500, "TTS failed: connect error") :=
  ⟨rfl, rfl⟩

/-- C5 amended: synthesis has a single provider and fails hard.  If every
provider call raises, `synthesize` re-raises the error (in preset and in
cloning mode alike), and the `/api/tts` endpoint surfaces an HTTP 500
`"TTS failed"` error to the caller. -/
theorem C5_amended (text speaker e : String)
    (post : SynthPayload → Except String (List Nat))
    (hpost : ∀ p, post p = Except.error e) :
    (∀ ra, CosyVoice_synthesize true text speaker ra post = Except.error e)
    ∧ text_to_speech true text speaker post
        = Except.error (500, "TTS failed: " ++ e) := by
  have hsyn : ∀ ra, CosyVoice_synthesize true text speaker ra post = Except.error e := by
    intro ra
    exact hpost _
  refine ⟨hsyn, ?_⟩
  unfold text_to_speech
  rw [hsyn none]

/-- C5 amended witness: both conjuncts at a concrete failing provider. -/
theorem C5_amended_witness :
    CosyVoice_synthesize true "text" "s" (some [7]) demoPostFail
      = Except.error "connect error"
    ∧ text_to_speech true "text" "s" demoPostFail
      = Except.error (500, "TTS failed: connect error") :=
  ⟨(C5_amended "text" "s" "connect error" demoPostFail (fun _ => rfl)).1 (some [7]),
   (C5_amended "text" "s" "connect error" demoPostFail (fun _ => rfl)).2⟩

/-- C6: whenever the generated assistant reply contains the completion
sentinel `"[DONE]"`, the message call returns `done = true` (with no
assumption on whether all fields are filled), the stored last history
entry equals the returned reply, and the returned reply is the original
reply with the sentinel occurrences removed and whitespace stripped. -/
theorem C6_sentinel (st : SessionState) (msg : String)
    (extr : List (String × Option String)) (reply : String)
    (h : containsSub reply sentinel = true) :
    (onboard_session_message st msg extr reply).2.2 = true
    ∧ (onboard_session_message st msg extr reply).1.history.getLast?
        = some ("assistant", (onboard_session_message st msg extr reply).2.1)
    ∧ (onboard_session_message st msg extr reply).2.1
        = pyStrip (pyRemoveAll sentinel reply) := by
  simp only [onboard_session_message, h, if_true]
  refine ⟨by trivial, ?_, by trivial⟩
  simp

/-- C6 witness: a concrete sentinel-bearing reply with fields still
missing: `done` is forced to `true` and both the returned and the stored
text are the stripped reply. -/
theorem C6_sentinel_witness :
    (onboard_session_message demoSession "hi" [] "好的 [DONE]").2.2 = true
    ∧ (onboard_session_message demoSession "hi" [] "好的 [DONE]").1.history.getLast?
        = some ("assistant", "好的") := by
  have h := C6_sentinel demoSession "hi" [] "好的 [DONE]" (by decide)
  refine ⟨h.1, ?_⟩
  rw [h.2.1, h.2.2]
  decide

/-- C9 counterexample: the profile-summary builder is NOT total over the
values an extraction merge can store.  Merging the extraction result
`{objections: ["价格", "效果"]}` (a truthy JSON list, which
`_extract_fields` does not type-check and `_apply_extracted` stores
unchecked) into a fresh session's fields makes the builder raise
`AttributeError` in `val("objections")` instead of returning a summary.
The error result also proves the list really was stored: had the merge
dropped it, every field would be `null` and the builder would return the
all-defaults summary. -/
theorem C9_counterexample :
    _build_profile_summary_py
        (_apply_extracted_fields_py pyFields0
          [("objections", PyVal.arr ["价格", "效果"])])
      = Except.error "AttributeError: list object has no attribute strip" := rfl

/-- A key whose stored value is not a list-like value under a dict-wide
hypothesis. -/
theorem pyFieldsGet_not_arr (f : PyFields) (k : String)
    (h : ∀ kv ∈ f, isArr kv.2 = false) : isArr (pyFieldsGet f k) = false := by
  induction f with
  | nil => rfl
  | cons kv rest ih =>
    by_cases hk : kv.1 == k
    · simp only [pyFieldsGet, hk, if_true]
      exact h kv (List.mem_cons_self kv rest)
    · simp only [pyFieldsGet, hk, if_false]
      exact ih (fun kv2 hm => h kv2 (List.mem_cons_of_mem kv hm))

/-- On a string-or-null value, `val(k)` succeeds and returns the stripped
string (empty for `null` and `""`). -/
theorem summaryValPy_ok (f : PyFields) (k : String)
    (h : isArr (pyFieldsGet f k) = false) :
    summaryValPy f k = Except.ok (specValPy f k) := by
  unfold summaryValPy specValPy pyValOr
  cases hv : pyFieldsGet f k with
  | null => rfl
  | str s =>
    by_cases hs : s.isEmpty = true
    · have hs2 : s = "" := (String.isEmpty_iff s).mp hs
      simp [pyValTruthy, hs, hs2, pyValStrip]
    · simp only [Bool.not_eq_true] at hs
      simp [pyValTruthy, hs, pyValStrip]
  | arr xs =>
    rw [hv] at h
    simp [isArr] at h

/-- When every `val(k)` succeeds with the spec-side value, the builder
returns the spec-side summary. -/
theorem build_py_eq (f : PyFields)
    (h : ∀ k, summaryValPy f k = Except.ok (specValPy f k)) :
    _build_profile_summary_py f = Except.ok (profileSummarySpecPy f) := by
  unfold _build_profile_summary_py
  rw [h "brand", h "industry", h "product", h "audience", h "channels",
      h "goals", h "tone", h "objections", h "region_lang"]
  rfl

/-- C9 amended: the profile-summary builder never fails on a fields
mapping whose stored values are all strings or `null` — which includes
the completely empty profile and every profile built from string-valued
extractions — and on those it returns the summary using the session's
(stripped) value for each field when non-empty and the documented default
otherwise; but a truthy non-string JSON value stored by an extraction
merge makes it raise `AttributeError` (see the counterexample). -/
theorem C9_amended (f : PyFields) (h : ∀ kv ∈ f, isArr kv.2 = false) :
    _build_profile_summary_py f = Except.ok (profileSummarySpecPy f) :=
  build_py_eq f (fun k => summaryValPy_ok f k (pyFieldsGet_not_arr f k h))

/-- C9 amended witness: the completely empty profile and a profile with a
merged string value both build without failing. -/
theorem C9_amended_witness :
    _build_profile_summary_py pyFields0 = Except.ok (profileSummarySpecPy pyFields0)
    ∧ _build_profile_summary_py
        (_apply_extracted_fields_py pyFields0 [("brand", PyVal.str "ABC")])
      = Except.ok (profileSummarySpecPy
          (_apply_extracted_fields_py pyFields0 [("brand", PyVal.str "ABC")])) :=
  ⟨C9_amended pyFields0 (by decide),
   C9_amended (_apply_extracted_fields_py pyFields0 [("brand", PyVal.str "ABC")])
     (by decide)⟩

-- ---------- Substring/strip lemmas for channel normalization ----------

theorem isSubL_iff (pat l : List Char) : isSubL pat l = true ↔ pat <:+: l := by
  induction l with
  | nil =>
    rw [isSubL, List.isEmpty_iff, List.infix_nil]
  | cons c cs ih =>
    rw [isSubL, Bool.or_eq_true, ih, List.infix_cons_iff]
    exact or_congr List.isPrefixOf_iff_prefix Iff.rfl

/-- An occurrence of a pattern whose first character the predicate
rejects survives `dropWhile`. -/
theorem infix_dropWhile_of_head (p : Char → Bool) (c0 : Char) (rest0 : List Char)
    (hc0 : p c0 = false) :
    ∀ l : List Char, (c0 :: rest0) <:+: l → (c0 :: rest0) <:+: l.dropWhile p := by
  intro l
  induction l with
  | nil => exact fun h => h
  | cons c cs ih =>
    intro h
    rw [List.dropWhile_cons]
    by_cases hpc : p c = true
    · rw [if_pos hpc]
      rcases List.infix_cons_iff.mp h with hpre | hinf
      · exfalso
        rcases List.cons_prefix_cons.mp hpre with ⟨hc, _⟩
        rw [← hc, hc0] at hpc
        exact Bool.false_ne_true hpc
      · exact ih hinf
    · rw [if_neg hpc]
      exact h

/-- The stripped list is an infix of the original. -/
theorem pyStripL_isInf (l : List Char) : pyStripL l <:+: l := by
  have h1 : (l.dropWhile isPySpace) <:+ l := List.dropWhile_suffix _
  have h2 : ((l.dropWhile isPySpace).reverse.dropWhile isPySpace)
      <:+ (l.dropWhile isPySpace).reverse := List.dropWhile_suffix _
  have h3 : pyStripL l <+: l.dropWhile isPySpace :=
    List.reverse_suffix.mp (by rw [pyStripL, List.reverse_reverse]; exact h2)
  exact (h3.isInfix).trans h1.isInfix

/-- An occurrence of a pattern containing no whitespace characters
survives stripping. -/
theorem infix_pyStripL (pat l : List Char) (hne : pat ≠ [])
    (hpat : ∀ c ∈ pat, isPySpace c = false) :
    pat <:+: l → pat <:+: pyStripL l := by
  intro h
  rcases hp : pat with _ | ⟨c0, rest0⟩
  · exact absurd hp hne
  subst hp
  have h1 : (c0 :: rest0) <:+: l.dropWhile isPySpace :=
    infix_dropWhile_of_head isPySpace c0 rest0
      (hpat c0 (List.mem_cons_self c0 rest0)) l h
  have h2 : (c0 :: rest0).reverse <:+: (l.dropWhile isPySpace).reverse :=
    List.reverse_infix.mpr h1
  rcases hrev : (c0 :: rest0).reverse with _ | ⟨d0, drest⟩
  · exact absurd (List.reverse_eq_nil_iff.mp hrev) (by simp)
  have hd0 : isPySpace d0 = false := by
    apply hpat
    rw [← List.mem_reverse, hrev]
    exact List.mem_cons_self d0 drest
  have h3 : (d0 :: drest) <:+: ((l.dropWhile isPySpace).reverse.dropWhile isPySpace) := by
    apply infix_dropWhile_of_head isPySpace d0 drest hd0
    rw [← hrev]
    exact h2
  rw [pyStripL]
  apply List.reverse_infix.mp
  rw [List.reverse_reverse, hrev]
  exact h3

/-- Stripping does not change whether a whitespace-free token occurs. -/
theorem containsSub_pyStrip (s tok : String) (hne : tok.data ≠ [])
    (htok : ∀ c ∈ tok.data, isPySpace c = false) :
    containsSub (pyStrip s) tok = containsSub s tok := by
  have h1 : containsSub (pyStrip s) tok = true ↔ containsSub s tok = true := by
    rw [containsSub, containsSub, isSubL_iff, isSubL_iff]
    show tok.data <:+: pyStripL s.data ↔ tok.data <:+: s.data
    constructor
    · intro h
      exact h.trans (pyStripL_isInf s.data)
    · intro h
      exact infix_pyStripL tok.data s.data hne htok h
  cases hA : containsSub (pyStrip s) tok <;> cases hB : containsSub s tok <;> simp_all

/-- C8: channel normalization on extracted string values — a value
containing both the SMS token `"短信"` and the phone token `"电"`
normalizes to `"两者"` (both); SMS-token-only to `"短信"` (sms);
phone-token-only to `"电话"` (phone); any other value passes through
verbatim. -/
theorem C8_channel_normalization (v : String) :
    (containsSub v "短信" = true → containsSub v "电" = true →
       normalize_channels v = "两者")
    ∧ (containsSub v "短信" = true → containsSub v "电" = false →
       normalize_channels v = "短信")
    ∧ (containsSub v "短信" = false → containsSub v "电" = true →
       normalize_channels v = "电话")
    ∧ (containsSub v "短信" = false → containsSub v "电" = false →
       normalize_channels v = v) := by
  have hsms : containsSub (pyStrip v) "短信" = containsSub v "短信" :=
    containsSub_pyStrip v "短信" (by decide) (by decide)
  have hph : containsSub (pyStrip v) "电" = containsSub v "电" :=
    containsSub_pyStrip v "电" (by decide) (by decide)
  have hph2 : containsSub (pyStrip v) "电话" = true →
      containsSub (pyStrip v) "电" = true := by
    intro h
    rw [containsSub, isSubL_iff] at h ⊢
    have hpre : ("电".data : List Char) <+: "电话".data := by decide
    exact (hpre.isInfix).trans h
  refine ⟨?_, ?_, ?_, ?_⟩
  · intro h1 h2
    unfold normalize_channels
    simp [hsms.trans h1, hph.trans h2]
  · intro h1 h2
    have hB : containsSub (pyStrip v) "电" = false := by rw [hph]; exact h2
    unfold normalize_channels
    simp [hsms.trans h1, hB]
  · intro h1 h2
    have hA : containsSub (pyStrip v) "短信" = false := by rw [hsms]; exact h1
    unfold normalize_channels
    simp [hA, hph.trans h2]
  · intro h1 h2
    have hA : containsSub (pyStrip v) "短信" = false := by rw [hsms]; exact h1
    have hB : containsSub (pyStrip v) "电" = false := by rw [hph]; exact h2
    have hC : containsSub (pyStrip v) "电话" = false := by
      cases hD : containsSub (pyStrip v) "电话"
      · rfl
      · rw [hph2 hD] at hB
        exact absurd hB (by decide)
    unfold normalize_channels
    simp [hA, hB, hC]

/-- C8 witness: concrete normalizations of each branch. -/
theorem C8_channel_normalization_witness :
    normalize_channels " 电话和短信 " = "两者"
    ∧ normalize_channels "随便" = "随便" :=
  ⟨(C8_channel_normalization " 电话和短信 ").1 (by decide) (by decide),
   (C8_channel_normalization "随便").2.2.2 (by decide) (by decide)⟩

end AutoSales
